import Mathlib

/-!
Shallow embedding of the code-review pipeline of the repository
(`reviewer/src/git_analyzer.py`, `reviewer/src/context_builder.py`,
`reviewer/src/llm_reviewer.py`, `reviewer/src/constants.py`).

Strings are modelled through their character lists, and the Python string
primitives used by the code (`split('\n')`, `strip()`, `startswith`,
`'\n'.join`, slicing, `re.search` for the two fixed patterns of the diff
parser, `int()`) are given as explicit executable Lean functions below.
All are restricted to the exact behaviour the source exercises.
-/

namespace CodeReview

/-- Python `str` truthiness for an optional string (`None` and `""` are falsy). -/
def optStrTruthy : Option String → Bool
  | none => false
  | some s => s ≠ ""

/-- Whitespace characters stripped by Python `str.strip()` (ASCII range). -/
def isPyWS (c : Char) : Bool :=
  c = ' ' || c = '\t' || c = '\n' || c = '\r' || c = '\x0b' || c = '\x0c'

/-- Python `s.strip()`. -/
def pyStrip (s : String) : String :=
  ⟨((s.data.dropWhile isPyWS).reverse.dropWhile isPyWS).reverse⟩

/-- Drop the first `n` characters of a string (Python `s[n:]`). -/
def strDropChars (s : String) (n : Nat) : String :=
  ⟨s.data.drop n⟩

/-- Take the first `n` characters of a string (Python `s[:n]`). -/
def strTakeChars (s : String) (n : Nat) : String :=
  ⟨s.data.take n⟩

/-- Python `s.startswith(pre)`. -/
def strStartsWith (s pre : String) : Bool :=
  pre.data.isPrefixOf s.data

/-- Index (in characters) of the leftmost occurrence of `needle` in `hay`,
as found by `re.search` for a literal pattern. -/
def findSubIdx (needle hay : String) : Option Nat :=
  (List.range (hay.data.length + 1)).find? (fun i => needle.data.isPrefixOf (hay.data.drop i))

/-- Python `needle in hay` substring test. -/
def containsSubstr (needle hay : String) : Bool :=
  (findSubIdx needle hay).isSome

/-- Python `s.split('\n')` on character lists: every `'\n'` separates, empty
pieces are kept, the empty string yields one empty piece. -/
def splitNlAux : List Char → List (List Char)
  | [] => [[]]
  | c :: rest =>
    match splitNlAux rest with
    | [] => [[c]]
    | a :: as => if c = '\n' then [] :: a :: as else (c :: a) :: as

/-- Python `s.split('\n')`. -/
def pySplitLines (s : String) : List String :=
  (splitNlAux s.data).map String.mk

/-- Python `'\n'.join(xs)`. -/
def pyJoinLines (xs : List String) : String :=
  String.intercalate "\n" xs

/-- Digit-group parser backing `pyInt`: one or more ASCII digits with single
underscores allowed between digit groups (Python 3 integer literal rule),
accumulating the decimal value. -/
def pyDigitsAux : List Char → Nat → Option Nat
  | [], acc => some acc
  | ['_'], _ => none
  | '_' :: c :: rest, acc =>
    if c.isDigit then pyDigitsAux rest (acc * 10 + (c.toNat - 48)) else none
  | c :: rest, acc =>
    if c.isDigit then pyDigitsAux rest (acc * 10 + (c.toNat - 48)) else none

/-- Nonempty ASCII digit sequence (with interior underscores) to `Nat`. -/
def pyDigits : List Char → Option Nat
  | [] => none
  | c :: rest => if c.isDigit then pyDigitsAux rest (c.toNat - 48) else none

/-- Python `int(s)` on an already-stripped string: optional sign followed by
digits; anything else raises `ValueError`, modelled as `none`. -/
def pyInt (s : String) : Option Int :=
  match s.data with
  | '+' :: rest => (pyDigits rest).map Int.ofNat
  | '-' :: rest => (pyDigits rest).map (fun n => -(n : Int))
  | cs => (pyDigits cs).map Int.ofNat

/-! ## Constants (`reviewer/src/constants.py`) -/

/-- File change types (`constants.ChangeType`). -/
inductive ChangeType
  | ADDED
  | MODIFIED
  | DELETED
deriving Repr, DecidableEq

/-- The `.value` string of a `ChangeType` member. -/
def ChangeType.value : ChangeType → String
  | .ADDED => "added"
  | .MODIFIED => "modified"
  | .DELETED => "deleted"

/-- Issue severity levels (`constants.Severity`). -/
inductive Severity
  | CRITICAL
  | WARNING
  | INFO
deriving Repr, DecidableEq

/-- The `.value` string of a `Severity` member. -/
def Severity.value : Severity → String
  | .CRITICAL => "critical"
  | .WARNING => "warning"
  | .INFO => "info"

/-- Issue categories (`constants.Category`). -/
inductive Category
  | BUG
  | SECURITY
  | STYLE
  | PERFORMANCE
  | GENERAL
deriving Repr, DecidableEq

/-- The `.value` string of a `Category` member. -/
def Category.value : Category → String
  | .BUG => "bug"
  | .SECURITY => "security"
  | .STYLE => "style"
  | .PERFORMANCE => "performance"
  | .GENERAL => "general"

/-! ## Diff parsing (`reviewer/src/git_analyzer.py`) -/

/-- `git_analyzer.FileChange`: one file's change in a diff. -/
structure FileChange where
  path : String
  change_type : String
  additions : List String
  deletions : List String
  line_numbers : List Nat
  diff : String
deriving Repr, DecidableEq

/-- `GitAnalyzer._detect_change_type`: classify by scanning the joined diff
lines for the literal header markers. -/
def detect_change_type (diff_lines : List String) : String :=
  let diff_text := pyJoinLines diff_lines
  if containsSubstr "new file mode" diff_text then ChangeType.ADDED.value
  else if containsSubstr "deleted file mode" diff_text then ChangeType.DELETED.value
  else ChangeType.MODIFIED.value

/-- Result of `re.search(r'\+\+\+ b/(.*)', line)`: the text after the
leftmost occurrence of `"+++ b/"`, when present. -/
def pppPath (line : String) : Option String :=
  (findSubIdx "+++ b/" line).map (fun i => strDropChars line (i + 6))

/-- Digit run splitter used by the hunk-header matcher. -/
def parseDigits1 (cs : List Char) : Option (Nat × List Char) :=
  let ds := cs.takeWhile Char.isDigit
  let rest := cs.dropWhile Char.isDigit
  match pyDigits ds with
  | some n => some (n, rest)
  | none => none

/-- Consume the regex fragment `,?\d*` by maximal munch (the only reading a
backtracking engine can accept here, since `\d+` never yields digits to `,?`). -/
def skipCommaDigits (cs : List Char) : List Char :=
  match cs with
  | ',' :: r => r.dropWhile Char.isDigit
  | _ => cs

/-- Try to match `@@ -\d+,?\d* \+(\d+),?\d* @@` at the head of `cs`,
returning the capture group (the post-image start line). -/
def matchHunkAt (cs : List Char) : Option Nat :=
  match cs with
  | '@' :: '@' :: ' ' :: '-' :: rest =>
    match parseDigits1 rest with
    | none => none
    | some (_, r1) =>
      match skipCommaDigits r1 with
      | ' ' :: '+' :: r3 =>
        match parseDigits1 r3 with
        | none => none
        | some (n, r4) =>
          match skipCommaDigits r4 with
          | ' ' :: '@' :: '@' :: _ => some n
          | _ => none
      | _ => none
  | _ => none

/-- Leftmost match of the hunk-header pattern anywhere in the character list
(`re.search` semantics). -/
def hunkSearch : List Char → Option Nat
  | [] => none
  | c :: rest =>
    match matchHunkAt (c :: rest) with
    | some n => some n
    | none => hunkSearch rest

/-- Result of `re.search(r'@@ -\d+,?\d* \+(\d+),?\d* @@', line)`. -/
def hunkNum (line : String) : Option Nat :=
  hunkSearch line.data

/-- The local accumulator variables of `GitAnalyzer._parse_diff`. -/
structure ParseState where
  changes : List FileChange
  current_file : Option String
  current_additions : List String
  current_deletions : List String
  current_line_numbers : List Nat
  current_diff : List String
deriving Repr, DecidableEq

/-- Initial accumulator state of `_parse_diff`. -/
def initState : ParseState :=
  ⟨[], none, [], [], [], []⟩

/-- The `FileChange` that `_parse_diff` appends when it flushes the current
file (the guard guarantees `current_file` is a nonempty string). -/
def currentChange (st : ParseState) : FileChange :=
  ⟨st.current_file.getD "", detect_change_type st.current_diff,
   st.current_additions, st.current_deletions, st.current_line_numbers,
   pyJoinLines st.current_diff⟩

/-- The `if current_file: changes.append(...)` flush of `_parse_diff`. -/
def flushIfTruthy (st : ParseState) : ParseState :=
  if optStrTruthy st.current_file then
    { st with changes := st.changes ++ [currentChange st] }
  else st

/-- The accumulator reset performed on a `diff --git` header line
(`current_file` is deliberately not reset, as in the source). -/
def resetAccums (st : ParseState) : ParseState :=
  { st with current_additions := [], current_deletions := [],
            current_line_numbers := [], current_diff := [] }

/-- The `elif` chain of `_parse_diff` handling one line after the header
check. -/
def chainStep (st : ParseState) (line : String) : ParseState :=
  if strStartsWith line "+++" then
    let st2 := match pppPath line with
      | some p => { st with current_file := some p }
      | none => st
    { st2 with current_diff := st2.current_diff ++ [line] }
  else if strStartsWith line "@@" then
    let st2 := match hunkNum line with
      | some n => { st with current_line_numbers := st.current_line_numbers ++ [n] }
      | none => st
    { st2 with current_diff := st2.current_diff ++ [line] }
  else if strStartsWith line "+" && !strStartsWith line "+++" then
    { st with current_additions := st.current_additions ++ [strDropChars line 1],
              current_diff := st.current_diff ++ [line] }
  else if strStartsWith line "-" && !strStartsWith line "---" then
    { st with current_deletions := st.current_deletions ++ [strDropChars line 1],
              current_diff := st.current_diff ++ [line] }
  else
    { st with current_diff := st.current_diff ++ [line] }

/-- One loop iteration of `GitAnalyzer._parse_diff`. -/
def parseDiffLine (st : ParseState) (line : String) : ParseState :=
  let st1 :=
    if strStartsWith line "diff --git" then resetAccums (flushIfTruthy st)
    else st
  chainStep st1 line

/-- `GitAnalyzer._parse_diff`: fold the line handler over the split diff text
and flush the last open file. -/
def parse_diff (diff_text : String) : List FileChange :=
  let st := (pySplitLines diff_text).foldl parseDiffLine initState
  (flushIfTruthy st).changes

/-- Number of lines of a diff text that begin with `diff --git`. -/
def numHeaders (diff_text : String) : Nat :=
  ((pySplitLines diff_text).filter (fun l => strStartsWith l "diff --git")).length

/-! ## Review issues (`reviewer/src/llm_reviewer.py`) -/

/-- The set `{s.value for s in Severity}`. -/
def valid_severities : List String :=
  [Severity.CRITICAL.value, Severity.WARNING.value, Severity.INFO.value]

/-- The set `{c.value for c in Category}`. -/
def valid_categories : List String :=
  [Category.BUG.value, Category.SECURITY.value, Category.STYLE.value,
   Category.PERFORMANCE.value, Category.GENERAL.value]

/-- `llm_reviewer.ReviewIssue` after `__post_init__` has run. -/
structure ReviewIssue where
  severity : String
  category : String
  file : String
  line : Int
  message : String
  suggestion : String
deriving Repr, DecidableEq

/-- Construction of a `ReviewIssue`, including the `__post_init__`
normalization: an unknown severity becomes `"info"`, an unknown category
becomes `"general"`; all other fields are kept as supplied. -/
def mkReviewIssue (severity category file : String) (line : Int)
    (message suggestion : String) : ReviewIssue :=
  ⟨if valid_severities.contains severity then severity else Severity.INFO.value,
   if valid_categories.contains category then category else Category.GENERAL.value,
   file, line, message, suggestion⟩

/-- The `current_issue` dictionary of `_parse_review_response`: each of the
five possible keys is present or absent. -/
structure IssueAcc where
  severity : Option String
  category : Option String
  line : Option Int
  message : Option String
  suggestion : Option String
deriving Repr, DecidableEq

/-- The empty `current_issue` dictionary. -/
def IssueAcc.empty : IssueAcc :=
  ⟨none, none, none, none, none⟩

/-- Python truthiness of the `current_issue` dictionary: true iff no key has
been set. -/
def IssueAcc.isEmpty (a : IssueAcc) : Bool :=
  a.severity.isNone && a.category.isNone && a.line.isNone &&
  a.message.isNone && a.suggestion.isNone

/-- The `ReviewIssue(...)` appended by `_parse_review_response` when a `---`
line closes a non-empty accumulator: missing keys take the documented
defaults via `dict.get`. -/
def closeIssue (acc : IssueAcc) (file_path : String) : ReviewIssue :=
  mkReviewIssue (acc.severity.getD "info") (acc.category.getD "general")
    file_path (acc.line.getD 0) (acc.message.getD "No message")
    (acc.suggestion.getD "No suggestion")

/-- One loop iteration of `LLMReviewer._parse_review_response`: the line is
stripped, then matched against the five `KEY:` prefixes and the `---`
terminator. -/
def parse_response_step (file_path : String)
    (st : List ReviewIssue × IssueAcc) (raw : String) :
    List ReviewIssue × IssueAcc :=
  let l := pyStrip raw
  if strStartsWith l "SEVERITY:" then
    (st.1, { st.2 with severity := some (pyStrip (strDropChars l 9)) })
  else if strStartsWith l "CATEGORY:" then
    (st.1, { st.2 with category := some (pyStrip (strDropChars l 9)) })
  else if strStartsWith l "LINE:" then
    (st.1, { st.2 with line := some (match pyInt (pyStrip (strDropChars l 5)) with
      | some n => n
      | none => 0) })
  else if strStartsWith l "MESSAGE:" then
    (st.1, { st.2 with message := some (pyStrip (strDropChars l 8)) })
  else if strStartsWith l "SUGGESTION:" then
    (st.1, { st.2 with suggestion := some (pyStrip (strDropChars l 11)) })
  else if l = "---" ∧ st.2.isEmpty = false then
    (st.1 ++ [closeIssue st.2 file_path], IssueAcc.empty)
  else
    st

/-- `_parse_review_response` on an already-split list of lines, returning the
collected issues and the final (possibly still open) accumulator. -/
def parse_response_lines (file_path : String) (lines : List String) :
    List ReviewIssue × IssueAcc :=
  lines.foldl (parse_response_step file_path) ([], IssueAcc.empty)

/-- `LLMReviewer._parse_review_response`: fold the line handler over the
split response; an accumulator still open at end of input is discarded. -/
def parse_review_response (response file_path : String) : List ReviewIssue :=
  (parse_response_lines file_path (pySplitLines response)).1

/-- A trimmed line that sets one of the five fields of the accumulator. -/
def isFieldLine (l : String) : Bool :=
  strStartsWith l "SEVERITY:" || strStartsWith l "CATEGORY:" ||
  strStartsWith l "LINE:" || strStartsWith l "MESSAGE:" ||
  strStartsWith l "SUGGESTION:"

/-- An abstraction of the response parser keeping only the emptiness bit of
the accumulator: counts the lines that close an issue (a trimmed `---` while
the accumulator is non-empty). This is the specification-side description of
when issues are emitted. -/
def closeEventsAux : List String → Bool → Nat
  | [], _ => 0
  | raw :: rest, b =>
    let l := pyStrip raw
    if isFieldLine l then
      closeEventsAux rest true
    else if l = "---" ∧ b = true then
      1 + closeEventsAux rest false
    else
      closeEventsAux rest b

/-- Number of issue-closing lines of a response, per the specification's
description of the structured-block protocol. -/
def closeEvents (lines : List String) : Nat :=
  closeEventsAux lines false

/-! ## Summary generation (`LLMReviewer._generate_summary`) -/

/-- Python dict-style counting: increment the entry of `k` in place when
present, otherwise append it (insertion order preserved). -/
def upsertCount (acc : List (String × Nat)) (k : String) : List (String × Nat) :=
  if acc.any (fun p => p.1 = k) then
    acc.map (fun p => if p.1 = k then (p.1, p.2 + 1) else p)
  else
    acc ++ [(k, 1)]

/-- Stable insertion of one entry into a list sorted by descending count,
placed before the first entry of equal or smaller count — the order produced
by Python `sorted(..., key=count, reverse=True)`, which is stable. -/
def insertByCountDesc (x : String × Nat) : List (String × Nat) → List (String × Nat)
  | [] => [x]
  | y :: ys => if y.2 ≤ x.2 then x :: y :: ys else y :: insertByCountDesc x ys

/-- Stable sort by descending count. -/
def sortByCountDesc (xs : List (String × Nat)) : List (String × Nat) :=
  xs.foldr insertByCountDesc []

/-- `LLMReviewer._generate_summary`. -/
def generate_summary (issues : List ReviewIssue) (files_count : Nat) : String :=
  if issues.isEmpty then
    "✅ No issues found in " ++ toString files_count ++ " file(s). Great work!"
  else
    let critical := (issues.filter (fun i => i.severity = "critical")).length
    let warnings := (issues.filter (fun i => i.severity = "warning")).length
    let info := (issues.filter (fun i => i.severity = "info")).length
    let summary_parts :=
      ["Found " ++ toString issues.length ++ " issue(s) in " ++
         toString files_count ++ " file(s):",
       "  • " ++ toString critical ++ " critical",
       "  • " ++ toString warnings ++ " warnings",
       "  • " ++ toString info ++ " info"]
    let categories := issues.foldl (fun acc i => upsertCount acc i.category) []
    let summary_parts :=
      if categories.isEmpty then summary_parts
      else
        summary_parts ++ ["\nBy category:"] ++
          (sortByCountDesc categories).map
            (fun p => "  • " ++ p.1 ++ ": " ++ toString p.2)
    pyJoinLines summary_parts

/-! ## Context building (`reviewer/src/context_builder.py`) -/

/-- `context_builder.CodeContext` (the `related_code` dictionary is an
insertion-ordered association list). -/
structure CodeContext where
  file_change : FileChange
  related_code : List (String × String)
  imports : List String
  modified_functions : List String
  modified_classes : List String
deriving Repr, DecidableEq

/-- Collaborators of `ContextBuilder.build_contexts`: the file-system read
(`os.path.exists` plus `open(...).read()` keyed by the change's path, spec
§4.2's `currentFileContentProvider`) and the heuristic regex extractors
(`_extract_imports`, `_extract_modified_functions`, `_extract_modified_classes`,
`_get_related_code`), which no claim constrains beyond the deletion path. -/
structure BuilderEnv where
  readFile : String → Option String
  extractImports : String → String → List String
  extractFunctions : String → List String
  extractClasses : String → List String
  getRelatedCode : String → List String → String → List (String × String)

/-- `ContextBuilder.build_contexts`: one `CodeContext` per change; deleted
changes are emitted empty before any collaborator is consulted, missing files
yield empty extraction, and `related_code` is filled only on request. -/
def build_contexts (env : BuilderEnv) (changes : List FileChange)
    (full_context : Bool) : List CodeContext :=
  changes.map (fun change =>
    if change.change_type = "deleted" then
      ⟨change, [], [], [], []⟩
    else
      match env.readFile change.path with
      | none => ⟨change, [], [], [], []⟩
      | some content =>
        let imports := env.extractImports content change.path
        ⟨change,
         if full_context then env.getRelatedCode content imports change.path else [],
         imports,
         env.extractFunctions change.diff,
         env.extractClasses change.diff⟩)

/-! ## Review orchestration (`LLMReviewer.review`) -/

/-- `llm_reviewer.ReviewResult`. -/
structure ReviewResult where
  issues : List ReviewIssue
  summary : String
  files_reviewed : Nat
  total_issues : Nat
deriving Repr, DecidableEq

/-- `LLMReviewer._build_review_prompt`. -/
def build_review_prompt (context : CodeContext) : String :=
  let prompt_parts :=
    ["File: " ++ context.file_change.path,
     "Change Type: " ++ context.file_change.change_type,
     "",
     "Git Diff:",
     "```",
     context.file_change.diff,
     "```",
     ""]
  let prompt_parts :=
    if context.imports.isEmpty then prompt_parts
    else prompt_parts ++
      ["Imports: " ++ String.intercalate ", " (context.imports.take 10)]
  let prompt_parts :=
    if context.modified_functions.isEmpty then prompt_parts
    else prompt_parts ++
      ["Modified Functions: " ++ String.intercalate ", " context.modified_functions]
  let prompt_parts :=
    if context.modified_classes.isEmpty then prompt_parts
    else prompt_parts ++
      ["Modified Classes: " ++ String.intercalate ", " context.modified_classes]
  let prompt_parts :=
    if context.related_code.isEmpty then prompt_parts
    else prompt_parts ++ ["\nRelated Code Context:"] ++
      (context.related_code.take 2).foldr
        (fun p acc => ("\n--- " ++ p.1 ++ " ---") :: strTakeChars p.2 500 :: acc) []
  pyJoinLines prompt_parts

/-- `LLMReviewer._review_file_change`, with the chat-completion endpoint an
opaque collaborator `complete : prompt → Except error responseText` (spec §1);
its failure propagates, a successful response is parsed. -/
def review_file_change (complete : String → Except String String)
    (context : CodeContext) : Except String (List ReviewIssue) :=
  match complete (build_review_prompt context) with
  | Except.error e => Except.error e
  | Except.ok text =>
    Except.ok (parse_review_response text context.file_change.path)

/-- The issues one context contributes inside the review loop: none for a
deleted file, none when the LLM call fails, the parsed issues otherwise. -/
def contribution (complete : String → Except String String)
    (context : CodeContext) : List ReviewIssue :=
  if context.file_change.change_type = ChangeType.DELETED.value then []
  else
    match review_file_change complete context with
    | Except.ok issues => issues
    | Except.error _ => []

/-- `LLMReviewer.review`: empty input returns the fixed result; otherwise the
loop skips deleted files, recovers from per-file failures, and the result is
assembled from the accumulated issues. -/
def review (complete : String → Except String String)
    (contexts : List CodeContext) : ReviewResult :=
  if contexts.isEmpty then
    ⟨[], "No files to review", 0, 0⟩
  else
    let all_issues := contexts.foldl (fun acc context =>
      if context.file_change.change_type = ChangeType.DELETED.value then acc
      else
        match review_file_change complete context with
        | Except.ok issues => acc ++ issues
        | Except.error _ => acc) []
    ⟨all_issues, generate_summary all_issues contexts.length,
     contexts.length, all_issues.length⟩

/-! ## Helper notions for the diff-parser proofs -/

/-- The update a single line makes to `current_file`: only a line beginning
with `+++` whose `+++ b/(.*)` search succeeds sets the path. -/
def pathSet (l : String) : Option String :=
  if strStartsWith l "+++" then pppPath l else none

/-- The value of `current_file` after scanning a list of lines starting from
`cf`: the last successful path extraction wins. -/
def scanPath (ls : List String) (cf : Option String) : Option String :=
  ls.foldl (fun acc l => match pathSet l with | some p => some p | none => acc) cf

/-- A well-formed file section of a diff: a `diff --git` header line (itself
not a path line) followed by a body with no further header and at least one
successful, nonempty path extraction. -/
def goodSection (s : List String) : Prop :=
  s ≠ [] ∧ strStartsWith (s.headD "") "diff --git" = true ∧
  pathSet (s.headD "") = none ∧
  (∀ l ∈ s.tail, strStartsWith l "diff --git" = false) ∧
  optStrTruthy (scanPath s.tail none) = true

instance : DecidablePred goodSection := fun s => by
  unfold goodSection
  infer_instance

/-- `chainStep` never touches the list of completed changes. -/
lemma chainStep_changes (st : ParseState) (l : String) :
    (chainStep st l).changes = st.changes := by
  unfold chainStep
  split
  · cases h : pppPath l <;> simp
  · split
    · cases h : hunkNum l <;> simp
    · split
      · simp
      · split <;> simp

/-- `chainStep` updates `current_file` exactly as `pathSet` describes. -/
lemma chainStep_current_file (st : ParseState) (l : String) :
    (chainStep st l).current_file =
      match pathSet l with
      | some p => some p
      | none => st.current_file := by
  unfold chainStep pathSet
  split
  · next h =>
    simp only [h]
    cases hp : pppPath l <;> simp
  · next h =>
    simp only [Bool.not_eq_true] at h
    simp only [h]
    split
    · cases hn : hunkNum l <;> simp
    · split
      · simp
      · split <;> simp

/-- `flushIfTruthy` appends the current change exactly when `current_file`
is truthy. -/
lemma flushIfTruthy_changes (st : ParseState) :
    (flushIfTruthy st).changes =
      if optStrTruthy st.current_file then st.changes ++ [currentChange st]
      else st.changes := by
  unfold flushIfTruthy
  split <;> simp_all

/-- `flushIfTruthy` does not change `current_file`. -/
lemma flushIfTruthy_current_file (st : ParseState) :
    (flushIfTruthy st).current_file = st.current_file := by
  unfold flushIfTruthy
  split <;> rfl

/-- How one loop iteration of `_parse_diff` affects the completed changes. -/
lemma parseDiffLine_changes (st : ParseState) (l : String) :
    (parseDiffLine st l).changes =
      if strStartsWith l "diff --git" then (flushIfTruthy st).changes
      else st.changes := by
  unfold parseDiffLine
  split <;> simp [chainStep_changes, resetAccums]

/-- One loop iteration of `_parse_diff` updates `current_file` exactly as
`pathSet` describes. -/
lemma parseDiffLine_current_file (st : ParseState) (l : String) :
    (parseDiffLine st l).current_file =
      match pathSet l with
      | some p => some p
      | none => st.current_file := by
  unfold parseDiffLine
  split <;>
    simp [chainStep_current_file, resetAccums, flushIfTruthy_current_file]

/-- After folding the line handler, `current_file` is the last extracted
path, starting from the initial value. -/
lemma foldl_parseDiffLine_current_file (ls : List String) (st : ParseState) :
    (ls.foldl parseDiffLine st).current_file = scanPath ls st.current_file := by
  induction ls generalizing st with
  | nil => rfl
  | cons l rest ih =>
    simp only [List.foldl_cons, scanPath] at *
    rw [ih, parseDiffLine_current_file]

/-- Lines without a `diff --git` header never flush a change. -/
lemma foldl_parseDiffLine_changes_nonheader (ls : List String) (st : ParseState)
    (h : ∀ l ∈ ls, strStartsWith l "diff --git" = false) :
    (ls.foldl parseDiffLine st).changes = st.changes := by
  induction ls generalizing st with
  | nil => rfl
  | cons l rest ih =>
    simp only [List.foldl_cons]
    rw [ih _ (fun x hx => h x (List.mem_cons_of_mem _ hx))]
    rw [parseDiffLine_changes, h l (List.mem_cons_self _ _)]
    simp

/-- `scanPath` is the identity when no line extracts a path. -/
lemma scanPath_none (ls : List String) (cf : Option String)
    (h : ∀ l ∈ ls, pathSet l = none) : scanPath ls cf = cf := by
  induction ls generalizing cf with
  | nil => rfl
  | cons l rest ih =>
    simp only [scanPath, List.foldl_cons] at *
    rw [h l (List.mem_cons_self _ _)]
    exact ih cf (fun x hx => h x (List.mem_cons_of_mem _ hx))

/-- When scanning from `none` produces a path, the initial value is
irrelevant: the last update wins. -/
lemma scanPath_some_irrel (ls : List String) (p : String)
    (h : scanPath ls none = some p) (cf : Option String) :
    scanPath ls cf = some p := by
  induction ls generalizing cf with
  | nil => simp [scanPath] at h
  | cons l rest ih =>
    simp only [scanPath, List.foldl_cons] at *
    cases hl : pathSet l with
    | some q => simp only [hl] at h ⊢; exact h
    | none =>
      simp only [hl] at h ⊢
      by_cases hr : scanPath rest none = some p
      · exact ih hr cf
      · -- `scanPath rest none` must be reached from `none` as well
        exact absurd h hr

/-- A truthy `current_file` is a nonempty path. -/
lemma optStrTruthy_iff (cf : Option String) :
    optStrTruthy cf = true ↔ ∃ p, cf = some p ∧ p ≠ "" := by
  cases cf with
  | none => simp [optStrTruthy]
  | some s => simp [optStrTruthy]

/-- Folding the line handler over one well-formed section from a state with
a truthy `current_file` flushes exactly one change and leaves `current_file`
truthy. -/
lemma foldl_parseDiffLine_section (s : List String) (hs : goodSection s)
    (st : ParseState) (ht : optStrTruthy st.current_file = true) :
    (s.foldl parseDiffLine st).changes.length = st.changes.length + 1 ∧
    optStrTruthy (s.foldl parseDiffLine st).current_file = true := by
  obtain ⟨hne, hhead, hpath, htail, htr⟩ := hs
  cases s with
  | nil => exact absurd rfl hne
  | cons h tail =>
    simp only [List.headD, List.tail] at hhead hpath htail htr
    simp only [List.foldl_cons]
    have hch : (parseDiffLine st h).changes = st.changes ++ [currentChange st] := by
      rw [parseDiffLine_changes, hhead, flushIfTruthy_changes, ht]
      simp
    have hcf : (parseDiffLine st h).current_file = st.current_file := by
      rw [parseDiffLine_current_file, hpath]
    constructor
    · rw [foldl_parseDiffLine_changes_nonheader tail _ htail, hch]
      simp
    · rw [foldl_parseDiffLine_current_file, hcf]
      obtain ⟨p, hp, hpne⟩ := (optStrTruthy_iff _).mp htr
      rw [scanPath_some_irrel tail p hp st.current_file]
      simpa [optStrTruthy] using hpne

/-- Folding the line handler over a concatenation of well-formed sections
from a truthy state flushes one change per section and stays truthy. -/
lemma foldl_parseDiffLine_sections (secs : List (List String))
    (hs : ∀ s ∈ secs, goodSection s) (st : ParseState)
    (ht : optStrTruthy st.current_file = true) :
    (secs.flatten.foldl parseDiffLine st).changes.length =
      st.changes.length + secs.length ∧
    optStrTruthy (secs.flatten.foldl parseDiffLine st).current_file = true := by
  induction secs generalizing st with
  | nil => simpa using ht
  | cons s rest ih =>
    simp only [List.flatten_cons, List.foldl_append]
    obtain ⟨h1, h2⟩ :=
      foldl_parseDiffLine_section s (hs s (List.mem_cons_self _ _)) st ht
    obtain ⟨h3, h4⟩ :=
      ih (fun x hx => hs x (List.mem_cons_of_mem _ hx)) _ h2
    refine ⟨?_, h4⟩
    rw [h3, h1]
    simp only [List.length_cons]
    omega

/-- Each well-formed section contains exactly one `diff --git` line. -/
lemma filter_header_sections (secs : List (List String))
    (hs : ∀ s ∈ secs, goodSection s) :
    ((secs.flatten).filter (fun l => strStartsWith l "diff --git")).length =
      secs.length := by
  induction secs with
  | nil => rfl
  | cons s rest ih =>
    obtain ⟨hne, hhead, -, htail, -⟩ := hs s (List.mem_cons_self _ _)
    cases s with
    | nil => exact absurd rfl hne
    | cons h tail =>
      simp only [List.headD, List.tail] at hhead htail
      simp only [List.flatten_cons, List.filter_append, List.filter_cons,
        List.length_append, List.length_cons]
      rw [hhead]
      have : tail.filter (fun l => strStartsWith l "diff --git") = [] := by
        rw [List.filter_eq_nil_iff]
        intro a ha
        simp [htail a ha]
      rw [this, ih (fun x hx => hs x (List.mem_cons_of_mem _ hx))]
      simp [List.length_cons]
      omega

/-! ## Claim theorems: diff parsing -/

/-- C1 (counterexample): a diff text with exactly one `diff --git` header but
no `+++ b/` line parses to zero `FileChange` records, not one — the parser
only flushes a section once a nonempty path has been extracted. -/
theorem c1_counterexample :
    numHeaders "diff --git a/x b/x" = 1 ∧
    parse_diff "diff --git a/x b/x" = [] := by
  constructor <;> rfl

/-- C1 (amended): for diff texts whose lines decompose into a prelude with no
header and no path line, followed by well-formed `diff --git` sections (each
a header followed by a body with no further header and a nonempty `+++ b/`
path), `_parse_diff` returns exactly one `FileChange` per `diff --git`
header. -/
theorem c1_parse_diff_header_count (text : String) (pre : List String)
    (sections : List (List String))
    (hsplit : pySplitLines text = pre ++ sections.flatten)
    (hpre : ∀ l ∈ pre, strStartsWith l "diff --git" = false ∧ pathSet l = none)
    (hsec : ∀ s ∈ sections, goodSection s) :
    (parse_diff text).length = numHeaders text ∧
    numHeaders text = sections.length := by
  have hnh : numHeaders text = sections.length := by
    unfold numHeaders
    rw [hsplit, List.filter_append]
    have hp : pre.filter (fun l => strStartsWith l "diff --git") = [] := by
      rw [List.filter_eq_nil_iff]
      intro a ha
      simp [(hpre a ha).1]
    rw [hp, List.nil_append, filter_header_sections sections hsec]
  refine ⟨?_, hnh⟩
  rw [hnh]
  unfold parse_diff
  rw [hsplit, List.foldl_append]
  have hch0 : (pre.foldl parseDiffLine initState).changes = [] :=
    foldl_parseDiffLine_changes_nonheader pre initState (fun l hl => (hpre l hl).1)
  have hcf0 : (pre.foldl parseDiffLine initState).current_file = none := by
    rw [foldl_parseDiffLine_current_file]
    exact scanPath_none pre none (fun l hl => (hpre l hl).2)
  cases sections with
  | nil =>
    simp only [List.flatten_nil, List.foldl_nil, List.length_nil]
    rw [flushIfTruthy_changes, hcf0]
    simp [optStrTruthy, hch0]
  | cons s rest =>
    obtain ⟨hne, hhead, hpath, htail, htr⟩ := hsec s (List.mem_cons_self _ _)
    cases s with
    | nil => exact absurd rfl hne
    | cons h tail =>
      simp only [List.headD, List.tail] at hhead hpath htail htr
      simp only [List.flatten_cons, List.foldl_append, List.foldl_cons]
      have hch1 : (parseDiffLine (pre.foldl parseDiffLine initState) h).changes = [] := by
        rw [parseDiffLine_changes, hhead, flushIfTruthy_changes, hcf0]
        simpa [optStrTruthy] using hch0
      have hcf1 : (parseDiffLine (pre.foldl parseDiffLine initState) h).current_file = none := by
        rw [parseDiffLine_current_file, hpath, hcf0]
      have hch2 : (tail.foldl parseDiffLine
          (parseDiffLine (pre.foldl parseDiffLine initState) h)).changes = [] := by
        rw [foldl_parseDiffLine_changes_nonheader tail _ htail, hch1]
      have hcf2 : optStrTruthy (tail.foldl parseDiffLine
          (parseDiffLine (pre.foldl parseDiffLine initState) h)).current_file = true := by
        rw [foldl_parseDiffLine_current_file, hcf1]
        exact htr
      obtain ⟨h3, h4⟩ := foldl_parseDiffLine_sections rest
        (fun x hx => hsec x (List.mem_cons_of_mem _ hx)) _ hcf2
      rw [flushIfTruthy_changes, h4]
      simp only [if_pos]
      rw [List.length_append, h3, hch2]
      simp

/-- C1 (witness): a concrete two-line well-formed diff where the record count
equals the header count. -/
theorem c1_witness :
    (parse_diff "diff --git a/x.py b/x.py\n+++ b/x.py\n+new").length =
      numHeaders "diff --git a/x.py b/x.py\n+++ b/x.py\n+new" :=
  (c1_parse_diff_header_count _ []
    [["diff --git a/x.py b/x.py", "+++ b/x.py", "+new"]]
    (by decide) (by decide) (by decide)).1

/-- C2: the scenario diff parses to exactly one `FileChange` with path
`x.py`, change type `modified`, additions `["new", "added"]` in order,
deletions `["old"]`, and hunk start lines `[1]`. -/
theorem c2_parse_diff_scenario :
    (parse_diff "diff --git a/x.py b/x.py\n--- a/x.py\n+++ b/x.py\n@@ -1,1 +1,2 @@\n-old\n+new\n+added\n").map
        (fun fc => (fc.path, fc.change_type, fc.additions, fc.deletions, fc.line_numbers)) =
      [("x.py", ChangeType.MODIFIED.value, ["new", "added"], ["old"], [1])] := by
  rfl

/-- A change appearing after a flush either was already present or carries a
nonempty path. -/
lemma mem_flushIfTruthy (st : ParseState) (fc : FileChange)
    (h : fc ∈ (flushIfTruthy st).changes) : fc ∈ st.changes ∨ fc.path ≠ "" := by
  rw [flushIfTruthy_changes] at h
  by_cases ht : optStrTruthy st.current_file = true
  · rw [if_pos ht] at h
    rcases List.mem_append.mp h with h1 | h2
    · exact Or.inl h1
    · obtain ⟨p, hp, hpne⟩ := (optStrTruthy_iff _).mp ht
      right
      rw [List.mem_singleton.mp h2]
      simp [currentChange, hp, hpne]
  · rw [if_neg ht] at h
    exact Or.inl h

/-- A change appearing after one parser step either was already present or
carries a nonempty path. -/
lemma mem_parseDiffLine (st : ParseState) (l : String) (fc : FileChange)
    (h : fc ∈ (parseDiffLine st l).changes) : fc ∈ st.changes ∨ fc.path ≠ "" := by
  rw [parseDiffLine_changes] at h
  by_cases hl : strStartsWith l "diff --git" = true
  · rw [if_pos hl] at h
    exact mem_flushIfTruthy st fc h
  · rw [if_neg hl] at h
    exact Or.inl h

/-- A change appearing after folding the parser either was already present
or carries a nonempty path. -/
lemma mem_foldl_parseDiffLine (ls : List String) (st : ParseState)
    (fc : FileChange) (h : fc ∈ (ls.foldl parseDiffLine st).changes) :
    fc ∈ st.changes ∨ fc.path ≠ "" := by
  induction ls generalizing st with
  | nil => exact Or.inl h
  | cons l rest ih =>
    rw [List.foldl_cons] at h
    rcases ih _ h with h1 | h2
    · exact mem_parseDiffLine st l fc h1
    · exact Or.inr h2

/-- C3 (counterexample): in the diff text
`"diff --git a/a.py b/a.py\n+++ b/x.py\ndiff --git a/b.py b/b.py"` the second
file section contains no `+++` line, yet its `FileChange` (the second and
last record) carries the inherited nonempty path `"x.py"`, not an empty
path. -/
theorem c3_counterexample :
    (parse_diff "diff --git a/a.py b/a.py\n+++ b/x.py\ndiff --git a/b.py b/b.py").map
        FileChange.path = ["x.py", "x.py"] ∧
    ("x.py" : String) ≠ "" := by
  constructor
  · rfl
  · decide

/-- C3 (amended): a file section with no `+++` line never receives a fresh
or empty path. Every `FileChange` the parser produces has a nonempty path,
and a final section whose body has no header and no path line yields a
record inheriting the most recent path extracted in earlier sections
(no record at all when no such path exists, by the first conjunct). -/
theorem c3_no_ppp_section_path :
    (∀ text : String, ∀ fc ∈ parse_diff text, fc.path ≠ "") ∧
    (∀ (text : String) (pre : List String) (h : String) (body : List String)
        (p : String),
      pySplitLines text = pre ++ h :: body →
      strStartsWith h "diff --git" = true →
      pathSet h = none →
      (∀ l ∈ body, strStartsWith l "diff --git" = false ∧ pathSet l = none) →
      scanPath pre none = some p →
      p ≠ "" →
      ((parse_diff text).getLast?).map FileChange.path = some p) := by
  constructor
  · intro text fc hfc
    unfold parse_diff at hfc
    rcases mem_flushIfTruthy _ fc hfc with h1 | h2
    · rcases mem_foldl_parseDiffLine _ _ fc h1 with h3 | h4
      · simp [initState] at h3
      · exact h4
    · exact h2
  · intro text pre h body p hsplit hh hph hbody hscan hp
    unfold parse_diff
    rw [hsplit, List.foldl_append, List.foldl_cons]
    have hcf0 : (pre.foldl parseDiffLine initState).current_file = some p := by
      rw [foldl_parseDiffLine_current_file]
      exact hscan
    have hcf1 : (parseDiffLine (pre.foldl parseDiffLine initState) h).current_file
        = some p := by
      rw [parseDiffLine_current_file, hph, hcf0]
    have hcf2 : (body.foldl parseDiffLine
        (parseDiffLine (pre.foldl parseDiffLine initState) h)).current_file
        = some p := by
      rw [foldl_parseDiffLine_current_file, hcf1]
      exact scanPath_none body (some p) (fun l hl => (hbody l hl).2)
    rw [flushIfTruthy_changes, hcf2]
    have : optStrTruthy (some p) = true := by simpa [optStrTruthy] using hp
    rw [this]
    simp only [if_pos]
    rw [List.getLast?_concat]
    simp [currentChange, hcf2]

/-- C3 (witness): applying the amended statement to the counterexample text,
whose final section has no `+++` line, shows its record inherits `"x.py"`. -/
theorem c3_witness :
    ((parse_diff "diff --git a/a.py b/a.py\n+++ b/x.py\ndiff --git a/b.py b/b.py").getLast?).map
        FileChange.path = some "x.py" :=
  c3_no_ppp_section_path.2
    "diff --git a/a.py b/a.py\n+++ b/x.py\ndiff --git a/b.py b/b.py"
    ["diff --git a/a.py b/a.py", "+++ b/x.py"]
    "diff --git a/b.py b/b.py" [] "x.py"
    (by decide) (by decide) (by decide) (by decide) (by decide) (by decide)

/-! ## Claim theorems: response parsing -/

/-- Any issue present after one parser step was already collected or has the
caller-supplied file path. -/
lemma parse_response_step_file (fp : String) (st : List ReviewIssue × IssueAcc)
    (raw : String) :
    ∀ i ∈ (parse_response_step fp st raw).1, i ∈ st.1 ∨ i.file = fp := by
  intro i hi
  simp only [parse_response_step] at hi
  split_ifs at hi with h1 h2 h3 h4 h5 h6
  all_goals
    first
      | exact Or.inl hi
      | (rcases List.mem_append.mp hi with h | h
         · exact Or.inl h
         · right
           rw [List.mem_singleton.mp h]
           rfl)

/-- Any issue collected by the fold was present initially or has the
caller-supplied file path. -/
lemma foldl_parse_response_file (fp : String) (lines : List String) :
    ∀ (st : List ReviewIssue × IssueAcc),
      ∀ i ∈ (lines.foldl (parse_response_step fp) st).1,
        i ∈ st.1 ∨ i.file = fp := by
  induction lines with
  | nil => intro st i hi; exact Or.inl hi
  | cons raw rest ih =>
    intro st i hi
    rw [List.foldl_cons] at hi
    rcases ih _ i hi with h | h
    · exact parse_response_step_file fp st raw i h
    · exact Or.inr h

/-- Classification of one parser step: a field line sets a field (making the
accumulator non-empty) and emits nothing, a `---` on a non-empty accumulator
closes one issue, and every other line leaves the state unchanged. -/
lemma parse_response_step_classify (fp : String)
    (st : List ReviewIssue × IssueAcc) (raw : String) :
    (isFieldLine (pyStrip raw) = true ∧
       (parse_response_step fp st raw).1 = st.1 ∧
       (parse_response_step fp st raw).2.isEmpty = false) ∨
    (isFieldLine (pyStrip raw) = false ∧ pyStrip raw = "---" ∧
       st.2.isEmpty = false ∧
       parse_response_step fp st raw =
         (st.1 ++ [closeIssue st.2 fp], IssueAcc.empty)) ∨
    (isFieldLine (pyStrip raw) = false ∧
       ¬(pyStrip raw = "---" ∧ st.2.isEmpty = false) ∧
       parse_response_step fp st raw = st) := by
  simp only [parse_response_step]
  split_ifs with h1 h2 h3 h4 h5 h6
  · exact Or.inl ⟨by simp [isFieldLine, h1], rfl, by simp [IssueAcc.isEmpty]⟩
  · exact Or.inl ⟨by simp [isFieldLine, h2], rfl, by simp [IssueAcc.isEmpty]⟩
  · exact Or.inl ⟨by simp [isFieldLine, h3], rfl, by simp [IssueAcc.isEmpty]⟩
  · exact Or.inl ⟨by simp [isFieldLine, h4], rfl, by simp [IssueAcc.isEmpty]⟩
  · exact Or.inl ⟨by simp [isFieldLine, h5], rfl, by simp [IssueAcc.isEmpty]⟩
  · exact Or.inr (Or.inl ⟨by simp [isFieldLine, h1, h2, h3, h4, h5],
      h6.1, h6.2, rfl⟩)
  · exact Or.inr (Or.inr ⟨by simp [isFieldLine, h1, h2, h3, h4, h5], h6, rfl⟩)

/-- The number of issues collected by the fold equals the number of closing
events of the emptiness-bit abstraction. -/
lemma foldl_parse_response_count (fp : String) (lines : List String) :
    ∀ (st : List ReviewIssue × IssueAcc),
      ((lines.foldl (parse_response_step fp) st).1).length =
        st.1.length + closeEventsAux lines (!st.2.isEmpty) := by
  induction lines with
  | nil => intro st; simp [closeEventsAux]
  | cons raw rest ih =>
    intro st
    rw [List.foldl_cons]
    rcases parse_response_step_classify fp st raw with
      ⟨hf, hiss, hacc⟩ | ⟨hf, hl, hne, hstep⟩ | ⟨hf, hnc, hstep⟩
    · rw [ih, hiss, hacc]
      have h1 : closeEventsAux (raw :: rest) (!st.2.isEmpty) =
          closeEventsAux rest true := by
        simp only [closeEventsAux]
        rw [if_pos hf]
      rw [h1]
      rfl
    · rw [hstep, ih]
      have h1 : closeEventsAux (raw :: rest) (!st.2.isEmpty) =
          1 + closeEventsAux rest false := by
        simp only [closeEventsAux]
        rw [if_neg (by simp [hf]), if_pos ⟨hl, by simp [hne]⟩]
      rw [h1]
      have h2 : (IssueAcc.empty).isEmpty = true := rfl
      rw [h2]
      simp only [Bool.not_true, List.length_append, List.length_singleton]
      omega
    · rw [hstep, ih]
      have h1 : closeEventsAux (raw :: rest) (!st.2.isEmpty) =
          closeEventsAux rest (!st.2.isEmpty) := by
        simp only [closeEventsAux]
        rw [if_neg (by simp [hf]),
          if_neg (fun hc => hnc ⟨hc.1, by simpa using hc.2⟩)]
      rw [h1]

/-- A step on a line that does not trim to `---` leaves the collected issues
unchanged. -/
lemma parse_response_step_ne (fp : String) (st : List ReviewIssue × IssueAcc)
    (raw : String) (h : pyStrip raw ≠ "---") :
    (parse_response_step fp st raw).1 = st.1 := by
  simp only [parse_response_step]
  split_ifs with h1 h2 h3 h4 h5 h6
  · rfl
  · rfl
  · rfl
  · rfl
  · rfl
  · exact absurd h6.1 h
  · rfl

/-- C4: the response parser emits one issue exactly at each line that trims
to `---` while the accumulator is non-empty (`closeEvents` counts those
events); the emitted issue takes the documented default for every missing
field and always carries the caller-supplied file path; and lines after the
last closing `---` (an accumulator still open at end of input) contribute no
issue. -/
theorem c4_response_block_protocol :
    (∀ response file_path : String,
       ∀ i ∈ parse_review_response response file_path, i.file = file_path) ∧
    (∀ response file_path : String,
       (parse_review_response response file_path).length =
         closeEvents (pySplitLines response)) ∧
    (∀ (file_path : String) (st : List ReviewIssue × IssueAcc) (raw : String),
       pyStrip raw = "---" → st.2.isEmpty = false →
       parse_response_step file_path st raw =
         (st.1 ++ [closeIssue st.2 file_path], IssueAcc.empty)) ∧
    (∀ (acc : IssueAcc) (file_path : String),
       (closeIssue acc file_path).file = file_path ∧
       (acc.severity = none → (closeIssue acc file_path).severity = "info") ∧
       (acc.category = none → (closeIssue acc file_path).category = "general") ∧
       (acc.line = none → (closeIssue acc file_path).line = 0) ∧
       (acc.message = none → (closeIssue acc file_path).message = "No message") ∧
       (acc.suggestion = none →
          (closeIssue acc file_path).suggestion = "No suggestion")) ∧
    (∀ (file_path : String) (lines extra : List String),
       (∀ l ∈ extra, pyStrip l ≠ "---") →
       (parse_response_lines file_path (lines ++ extra)).1 =
         (parse_response_lines file_path lines).1) := by
  refine ⟨?_, ?_, ?_, ?_, ?_⟩
  · intro response file_path i hi
    rcases foldl_parse_response_file file_path (pySplitLines response) _ i hi with h | h
    · simp at h
    · exact h
  · intro response file_path
    unfold parse_review_response parse_response_lines closeEvents
    rw [foldl_parse_response_count]
    simp [IssueAcc.empty, IssueAcc.isEmpty]
  · intro file_path st raw h1 h2
    simp only [parse_response_step]
    rw [if_neg, if_neg, if_neg, if_neg, if_neg, if_pos]
    · rw [h1, h2]
      simp
    all_goals rw [h1]
    all_goals simp [strStartsWith]
  · intro acc file_path
    refine ⟨rfl, ?_, ?_, ?_, ?_, ?_⟩ <;> intro h <;>
      simp [closeIssue, mkReviewIssue, h, valid_severities, valid_categories,
        Severity.value, Category.value]
  · intro file_path lines extra h
    unfold parse_response_lines
    rw [List.foldl_append]
    generalize (lines.foldl (parse_response_step file_path) ([], IssueAcc.empty)) = st
    induction extra generalizing st with
    | nil => rfl
    | cons raw rest ih =>
      rw [List.foldl_cons]
      have hne := h raw (List.mem_cons_self _ _)
      have hstep := parse_response_step_ne file_path st raw hne
      rw [ih (fun x hx => h x (List.mem_cons_of_mem _ hx)) _]
      exact hstep

/-- C4 (witness): a trimmed `---` on a non-empty accumulator closes exactly
one defaulted issue, and field lines after the last `---` are discarded. -/
theorem c4_witness :
    parse_response_step "f.py" ([], ⟨some "critical", none, none, none, none⟩)
        " --- " =
      ([closeIssue ⟨some "critical", none, none, none, none⟩ "f.py"],
        IssueAcc.empty) ∧
    (parse_response_lines "f.py" (["SEVERITY: x"] ++ ["MESSAGE: open"])).1 =
      (parse_response_lines "f.py" ["SEVERITY: x"]).1 := by
  constructor
  · have h := c4_response_block_protocol.2.2.1 "f.py"
      ([], ⟨some "critical", none, none, none, none⟩) " --- " (by decide) (by decide)
    simpa using h
  · exact c4_response_block_protocol.2.2.2.2 "f.py" ["SEVERITY: x"]
      ["MESSAGE: open"] (by decide)

/-- C5: the response parser is a total function — every input yields a
(possibly empty) issue list — and the concrete garbage input with no markers
yields the empty list. -/
theorem c5_parser_total :
    parse_review_response "garbage text with no markers" "f.py" = [] ∧
    ∀ response file_path : String,
      ∃ issues : List ReviewIssue,
        parse_review_response response file_path = issues :=
  ⟨rfl, fun _ _ => ⟨_, rfl⟩⟩

/-- C6 (counterexample): the response `"LINE: -5\n---"` produces an issue
whose line field is `-5`, which is negative — `int("-5")` succeeds in the
code, so the claimed invariant `line ≥ 0` fails. -/
theorem c6_counterexample :
    (parse_review_response "LINE: -5\n---" "f.py").map ReviewIssue.line =
        [(-5 : Int)] ∧
    (-5 : Int) < 0 := by
  constructor
  · rfl
  · decide

/-- The head of a list with a cons prefix. -/
lemma isPrefixOf_head (a : Char) (as l : List Char)
    (h : ((a :: as).isPrefixOf l) = true) :
    ∃ t, l = a :: t := by
  cases l with
  | nil => simp [List.isPrefixOf] at h
  | cons b bs =>
    simp [List.isPrefixOf] at h
    exact ⟨bs, by rw [h.1]⟩

/-- A line recognized by the `LINE:` branch is not captured by the earlier
`SEVERITY:` or `CATEGORY:` branches. -/
lemma startsWith_LINE_not_earlier (l : String)
    (h : strStartsWith l "LINE:" = true) :
    strStartsWith l "SEVERITY:" = false ∧ strStartsWith l "CATEGORY:" = false := by
  unfold strStartsWith at *
  have hdata : "LINE:".data = 'L' :: "INE:".data := rfl
  rw [hdata] at h
  obtain ⟨t, hl⟩ := isPrefixOf_head 'L' _ _ h
  have hs : ('S' == 'L') = false := by decide
  have hc : ('C' == 'L') = false := by decide
  constructor
  · rw [show "SEVERITY:".data = 'S' :: "EVERITY:".data from rfl, hl]
    simp [List.isPrefixOf, hs]
  · rw [show "CATEGORY:".data = 'C' :: "ATEGORY:".data from rfl, hl]
    simp [List.isPrefixOf, hc]

/-- `closeIssue` passes the accumulated line value through unchanged,
defaulting to `0`. -/
lemma closeIssue_line (acc : IssueAcc) (fp : String) :
    (closeIssue acc fp).line = acc.line.getD 0 := rfl

/-- How one parser step can affect the accumulated line field. -/
lemma parse_response_step_accline (fp : String)
    (st : List ReviewIssue × IssueAcc) (raw : String) :
    (parse_response_step fp st raw).2.line = st.2.line ∨
    (parse_response_step fp st raw).2.line = none ∨
    (strStartsWith (pyStrip raw) "LINE:" = true ∧
      (parse_response_step fp st raw).2.line =
        some (match pyInt (pyStrip (strDropChars (pyStrip raw) 5)) with
              | some n => n
              | none => 0)) := by
  simp only [parse_response_step]
  split_ifs with h1 h2 h3 h4 h5 h6
  · exact Or.inl rfl
  · exact Or.inl rfl
  · exact Or.inr (Or.inr ⟨h3, rfl⟩)
  · exact Or.inl rfl
  · exact Or.inl rfl
  · exact Or.inr (Or.inl rfl)
  · exact Or.inl rfl

/-- A line value traceable to a `LINE:` directive of the response text. -/
def lineOrigin (lines : List String) (n : Int) : Prop :=
  ∃ raw ∈ lines, strStartsWith (pyStrip raw) "LINE:" = true ∧
    pyInt (pyStrip (strDropChars (pyStrip raw) 5)) = some n

/-- Issues collected by a suffix of the fold have line `0` or a line parsed
from some `LINE:` directive of the ambient line list. -/
lemma foldl_parse_response_line_sources (fp : String) (L : List String) :
    ∀ ls : List String, (∀ l ∈ ls, l ∈ L) →
    ∀ st : List ReviewIssue × IssueAcc,
      (∀ i ∈ st.1, i.line = 0 ∨ lineOrigin L i.line) →
      (∀ n : Int, st.2.line = some n → n = 0 ∨ lineOrigin L n) →
      ∀ i ∈ (ls.foldl (parse_response_step fp) st).1,
        i.line = 0 ∨ lineOrigin L i.line := by
  intro ls
  induction ls with
  | nil =>
    intro _ st hiss _ i hi
    exact hiss i hi
  | cons raw rest ih =>
    intro hsub st hiss hacc i hi
    rw [List.foldl_cons] at hi
    refine ih (fun x hx => hsub x (List.mem_cons_of_mem _ hx)) _ ?_ ?_ i hi
    · intro j hj
      rcases parse_response_step_classify fp st raw with
        ⟨-, hiss2, -⟩ | ⟨-, -, -, hstep⟩ | ⟨-, -, hstep⟩
      · rw [hiss2] at hj
        exact hiss j hj
      · rw [hstep] at hj
        rcases List.mem_append.mp hj with h | h
        · exact hiss j h
        · rw [List.mem_singleton.mp h, closeIssue_line]
          cases hline : st.2.line with
          | none => simp
          | some n =>
            simp only [Option.getD_some]
            exact hacc n hline
      · rw [hstep] at hj
        exact hiss j hj
    · intro n hn
      rcases parse_response_step_accline fp st raw with h | h | ⟨hline, h⟩
      · rw [h] at hn
        exact hacc n hn
      · rw [h] at hn
        exact absurd hn (by simp)
      · rw [h] at hn
        cases hp : pyInt (pyStrip (strDropChars (pyStrip raw) 5)) with
        | none =>
          left
          rw [hp] at hn
          simpa using hn.symm
        | some m =>
          right
          rw [hp] at hn
          have hm : n = m := by simpa using hn.symm
          exact ⟨raw, hsub raw (List.mem_cons_self _ _), hline, by rw [hp, hm]⟩

/-- C6 (amended): the `line` field of a parsed issue is an integer, but not
necessarily nonnegative: a `LINE:` value that does not parse as an integer is
normalized to `0`, and every issue's line is either `0` or the verbatim
(possibly negative) integer parsed from some `LINE:` directive of the
response. -/
theorem c6_line_normalization :
    (∀ (file_path : String) (st : List ReviewIssue × IssueAcc) (raw : String),
       strStartsWith (pyStrip raw) "LINE:" = true →
       pyInt (pyStrip (strDropChars (pyStrip raw) 5)) = none →
       (parse_response_step file_path st raw).2.line = some 0) ∧
    (∀ response file_path : String,
       ∀ i ∈ parse_review_response response file_path,
         i.line = 0 ∨ lineOrigin (pySplitLines response) i.line) := by
  constructor
  · intro file_path st raw h hnone
    have hd := startsWith_LINE_not_earlier (pyStrip raw) h
    simp only [parse_response_step]
    rw [if_neg (by simp [hd.1]), if_neg (by simp [hd.2]), if_pos h]
    simp [hnone]
  · intro response file_path i hi
    refine foldl_parse_response_line_sources file_path (pySplitLines response)
      (pySplitLines response) (fun l hl => hl) ([], IssueAcc.empty)
      ?_ ?_ i hi
    · intro j hj
      simp at hj
    · intro n hn
      simp [IssueAcc.empty] at hn

/-- C6 (witness): the step normalizes the non-numeric `LINE: abc` to `0`, and
the issue parsed from `"LINE: 7\n---"` has a line traceable to its `LINE:`
directive. -/
theorem c6_witness :
    (parse_response_step "f.py" ([], IssueAcc.empty) "LINE: abc").2.line =
        some 0 ∧
    ((⟨"info", "general", "f.py", 7, "No message", "No suggestion"⟩ :
        ReviewIssue).line = 0 ∨
      lineOrigin (pySplitLines "LINE: 7\n---")
        (⟨"info", "general", "f.py", 7, "No message", "No suggestion"⟩ :
          ReviewIssue).line) := by
  constructor
  · exact c6_line_normalization.1 "f.py" ([], IssueAcc.empty) "LINE: abc"
      (by decide) (by decide)
  · exact c6_line_normalization.2 "LINE: 7\n---" "f.py"
      ⟨"info", "general", "f.py", 7, "No message", "No suggestion"⟩ (by decide)

/-! ## Claim theorems: issue construction and orchestration -/

/-- C7: every constructed `ReviewIssue` has a severity among critical,
warning, info and a category among bug, security, style, performance,
general; unknown severities normalize to `info` and unknown categories to
`general`; all other fields are kept, and construction never fails. -/
theorem c7_issue_field_normalization :
    ∀ (severity category file : String) (line : Int)
      (message suggestion : String),
      ((mkReviewIssue severity category file line message suggestion).severity
          ∈ valid_severities) ∧
      ((mkReviewIssue severity category file line message suggestion).category
          ∈ valid_categories) ∧
      (severity ∉ valid_severities →
        (mkReviewIssue severity category file line message suggestion).severity
          = "info") ∧
      (category ∉ valid_categories →
        (mkReviewIssue severity category file line message suggestion).category
          = "general") ∧
      (mkReviewIssue severity category file line message suggestion).file
          = file ∧
      (mkReviewIssue severity category file line message suggestion).line
          = line ∧
      (mkReviewIssue severity category file line message suggestion).message
          = message ∧
      (mkReviewIssue severity category file line message suggestion).suggestion
          = suggestion := by
  intro severity category file line message suggestion
  refine ⟨?_, ?_, ?_, ?_, rfl, rfl, rfl, rfl⟩
  · by_cases h : valid_severities.contains severity = true
    · have hmem : severity ∈ valid_severities := by simpa using h
      simp only [mkReviewIssue]
      rw [if_pos h]
      exact hmem
    · simp only [mkReviewIssue]
      rw [if_neg h]
      decide
  · by_cases h : valid_categories.contains category = true
    · have hmem : category ∈ valid_categories := by simpa using h
      simp only [mkReviewIssue]
      rw [if_pos h]
      exact hmem
    · simp only [mkReviewIssue]
      rw [if_neg h]
      decide
  · intro hnot
    have h : ¬(valid_severities.contains severity = true) := by
      simpa using hnot
    simp only [mkReviewIssue]
    rw [if_neg h]
    rfl
  · intro hnot
    have h : ¬(valid_categories.contains category = true) := by
      simpa using hnot
    simp only [mkReviewIssue]
    rw [if_neg h]
    rfl

/-- C7 (witness): a bogus severity and category normalize to `info` and
`general`. -/
theorem c7_witness :
    (mkReviewIssue "bogus" "weird" "f.py" 3 "m" "s").severity = "info" ∧
    (mkReviewIssue "bogus" "weird" "f.py" 3 "m" "s").category = "general" :=
  ⟨(c7_issue_field_normalization "bogus" "weird" "f.py" 3 "m" "s").2.2.1
      (by decide),
   (c7_issue_field_normalization "bogus" "weird" "f.py" 3 "m" "s").2.2.2.1
      (by decide)⟩

/-- The review loop accumulates exactly the per-context contributions. -/
lemma review_loop_eq (complete : String → Except String String) :
    ∀ (ctxs : List CodeContext) (acc : List ReviewIssue),
      ctxs.foldl (fun acc context =>
        if context.file_change.change_type = ChangeType.DELETED.value then acc
        else
          match review_file_change complete context with
          | Except.ok issues => acc ++ issues
          | Except.error _ => acc) acc
      = acc ++ (ctxs.map (contribution complete)).flatten := by
  intro ctxs
  induction ctxs with
  | nil => intro acc; simp
  | cons c rest ih =>
    intro acc
    rw [List.foldl_cons, ih]
    simp only [List.map_cons, List.flatten_cons, ← List.append_assoc]
    congr 1
    unfold contribution
    by_cases hd : c.file_change.change_type = ChangeType.DELETED.value
    · rw [if_pos hd, if_pos hd]
      simp
    · rw [if_neg hd, if_neg hd]
      cases review_file_change complete c <;> simp

/-- The issues of a review result are the concatenated per-context
contributions. -/
lemma review_issues (complete : String → Except String String)
    (ctxs : List CodeContext) :
    (review complete ctxs).issues = (ctxs.map (contribution complete)).flatten := by
  unfold review
  by_cases h : ctxs.isEmpty
  · rw [if_pos h, List.isEmpty_iff.mp h]
    rfl
  · rw [if_neg h]
    simp only [review_loop_eq, List.nil_append]

/-- `files_reviewed` is always the number of input contexts. -/
lemma review_files (complete : String → Except String String)
    (ctxs : List CodeContext) :
    (review complete ctxs).files_reviewed = ctxs.length := by
  unfold review
  by_cases h : ctxs.isEmpty
  · rw [if_pos h, List.isEmpty_iff.mp h]
    rfl
  · rw [if_neg h]

/-- The summary of a review result, characterized. -/
lemma review_summary (complete : String → Except String String)
    (ctxs : List CodeContext) :
    (review complete ctxs).summary =
      if ctxs.isEmpty then "No files to review"
      else generate_summary (review complete ctxs).issues ctxs.length := by
  by_cases h : ctxs.isEmpty
  · unfold review
    rw [if_pos h, if_pos h]
  · rw [if_neg h, review_issues]
    unfold review
    rw [if_neg h]
    simp only [review_loop_eq, List.nil_append]

/-- A deleted or failing context contributes no issues. -/
lemma contribution_eq_nil (complete : String → Except String String)
    (c : CodeContext)
    (h : c.file_change.change_type = ChangeType.DELETED.value ∨
      ∃ e, complete (build_review_prompt c) = Except.error e) :
    contribution complete c = [] := by
  unfold contribution
  rcases h with h | ⟨e, h⟩
  · rw [if_pos h]
  · by_cases hd : c.file_change.change_type = ChangeType.DELETED.value
    · rw [if_pos hd]
    · rw [if_neg hd]
      unfold review_file_change
      rw [h]

/-- C8: a failure of the opaque LLM call for one file is recovered: that
file contributes zero issues, all other files are still reviewed (the
result's issues are exactly those of the run without the failing file), and a
`ReviewResult` covering every input file is still returned. -/
theorem c8_per_file_failure_recovery
    (complete : String → Except String String)
    (pre post : List CodeContext) (c : CodeContext) (e : String)
    (h : complete (build_review_prompt c) = Except.error e) :
    (review complete (pre ++ c :: post)).issues =
      (review complete (pre ++ post)).issues ∧
    (review complete (pre ++ c :: post)).files_reviewed =
      pre.length + 1 + post.length := by
  constructor
  · rw [review_issues, review_issues]
    simp only [List.map_append, List.map_cons, List.flatten_append,
      List.flatten_cons]
    rw [contribution_eq_nil complete c (Or.inr ⟨e, h⟩)]
    simp
  · rw [review_files]
    simp [List.length_append]
    omega

/-- C8 (witness): with an always-failing endpoint, a single-file run returns
a result with no issues and the file counted. -/
theorem c8_witness :
    (review (fun _ => Except.error "boom")
        ([] ++ (⟨⟨"a.py", "modified", [], [], [], "d"⟩, [], [], [], []⟩ : CodeContext) :: [])).issues =
      (review (fun _ => Except.error "boom") ([] ++ [])).issues ∧
    (review (fun _ => Except.error "boom")
        ([] ++ (⟨⟨"a.py", "modified", [], [], [], "d"⟩, [], [], [], []⟩ : CodeContext) :: [])).files_reviewed =
      ([] : List CodeContext).length + 1 + ([] : List CodeContext).length :=
  c8_per_file_failure_recovery (fun _ => Except.error "boom") [] []
    ⟨⟨"a.py", "modified", [], [], [], "d"⟩, [], [], [], []⟩ "boom" rfl

/-- C9: a deleted `FileChange` gets an empty `CodeContext` (no related code,
imports, or modified symbols); the orchestrator's result never depends on the
LLM endpoint's behaviour on deleted files (zero calls observable), a deleted
context contributes zero issues, and it is still counted in
`files_reviewed`. -/
theorem c9_deleted_change_handling :
    (∀ (env : BuilderEnv) (changes : List FileChange) (full_context : Bool)
       (i : Nat) (ch : FileChange),
       changes[i]? = some ch → ch.change_type = "deleted" →
       (build_contexts env changes full_context)[i]? =
         some ⟨ch, [], [], [], []⟩) ∧
    (∀ (complete complete2 : String → Except String String)
       (ctxs : List CodeContext),
       (∀ c ∈ ctxs, c.file_change.change_type ≠ ChangeType.DELETED.value →
          complete (build_review_prompt c) = complete2 (build_review_prompt c)) →
       review complete ctxs = review complete2 ctxs) ∧
    (∀ (complete : String → Except String String)
       (pre post : List CodeContext) (c : CodeContext),
       c.file_change.change_type = ChangeType.DELETED.value →
       (review complete (pre ++ c :: post)).issues =
         (review complete (pre ++ post)).issues) ∧
    (∀ (complete : String → Except String String) (ctxs : List CodeContext),
       (review complete ctxs).files_reviewed = ctxs.length) := by
  refine ⟨?_, ?_, ?_, ?_⟩
  · intro env changes full_context i ch h1 h2
    unfold build_contexts
    rw [List.getElem?_map, h1]
    simp [h2]
  · intro complete complete2 ctxs h
    have hc : ∀ c ∈ ctxs, contribution complete c = contribution complete2 c := by
      intro c hcm
      unfold contribution
      by_cases hd : c.file_change.change_type = ChangeType.DELETED.value
      · rw [if_pos hd, if_pos hd]
      · rw [if_neg hd, if_neg hd]
        unfold review_file_change
        rw [h c hcm hd]
    unfold review
    by_cases he : ctxs.isEmpty
    · rw [if_pos he, if_pos he]
    · rw [if_neg he, if_neg he]
      simp only [review_loop_eq, List.nil_append]
      rw [List.map_congr_left hc]
  · intro complete pre post c hd
    rw [review_issues, review_issues]
    simp only [List.map_append, List.map_cons, List.flatten_append,
      List.flatten_cons]
    rw [contribution_eq_nil complete c (Or.inl hd)]
    simp
  · intro complete ctxs
    exact review_files complete ctxs

/-- C9 (witness): a concrete deleted file gets an empty context, makes the
result independent of the endpoint, contributes no issues, and is counted. -/
theorem c9_witness :
    (build_contexts
        ⟨fun _ => none, fun _ _ => [], fun _ => [], fun _ => [],
          fun _ _ _ => []⟩
        [⟨"x.py", "deleted", [], [], [], "d"⟩] false)[0]? =
      some ⟨⟨"x.py", "deleted", [], [], [], "d"⟩, [], [], [], []⟩ ∧
    review (fun _ => Except.ok "SEVERITY: info\n---")
        [⟨⟨"x.py", "deleted", [], [], [], "d"⟩, [], [], [], []⟩] =
      review (fun _ => Except.error "down")
        [⟨⟨"x.py", "deleted", [], [], [], "d"⟩, [], [], [], []⟩] ∧
    (review (fun _ => Except.error "down")
        ([] ++ (⟨⟨"x.py", "deleted", [], [], [], "d"⟩, [], [], [], []⟩ : CodeContext) :: [])).issues =
      (review (fun _ => Except.error "down") ([] ++ [])).issues ∧
    (review (fun _ => Except.error "down")
        [⟨⟨"x.py", "deleted", [], [], [], "d"⟩, [], [], [], []⟩]).files_reviewed =
      ([(⟨⟨"x.py", "deleted", [], [], [], "d"⟩, [], [], [], []⟩ : CodeContext)]).length := by
  refine ⟨?_, ?_, ?_, ?_⟩
  · exact c9_deleted_change_handling.1
      ⟨fun _ => none, fun _ _ => [], fun _ => [], fun _ => [], fun _ _ _ => []⟩
      [⟨"x.py", "deleted", [], [], [], "d"⟩] false 0
      ⟨"x.py", "deleted", [], [], [], "d"⟩ rfl rfl
  · refine c9_deleted_change_handling.2.1 _ _ _ ?_
    intro c hc hne
    rw [List.mem_singleton.mp hc] at hne
    exact absurd rfl hne
  · exact c9_deleted_change_handling.2.2.1 _ [] []
      ⟨⟨"x.py", "deleted", [], [], [], "d"⟩, [], [], [], []⟩ rfl
  · exact c9_deleted_change_handling.2.2.2 _ _

/-- C10: every review result satisfies `total_issues = issues.length`; its
summary is a function of the collected issues and the file count alone
(results agreeing on both agree on the summary); and the empty input yields
the fixed result with no issues, zero files, and the fixed summary text. -/
theorem c10_result_invariants :
    (∀ (complete : String → Except String String) (ctxs : List CodeContext),
       (review complete ctxs).total_issues =
         (review complete ctxs).issues.length) ∧
    (∀ (complete1 : String → Except String String) (ctxs1 : List CodeContext)
       (complete2 : String → Except String String) (ctxs2 : List CodeContext),
       (review complete1 ctxs1).issues = (review complete2 ctxs2).issues →
       (review complete1 ctxs1).files_reviewed =
         (review complete2 ctxs2).files_reviewed →
       (review complete1 ctxs1).summary = (review complete2 ctxs2).summary) ∧
    (∀ complete : String → Except String String,
       review complete [] = ⟨[], "No files to review", 0, 0⟩) := by
  refine ⟨?_, ?_, ?_⟩
  · intro complete ctxs
    unfold review
    by_cases h : ctxs.isEmpty
    · rw [if_pos h]
      rfl
    · rw [if_neg h]
  · intro complete1 ctxs1 complete2 ctxs2 hiss hfiles
    rw [review_files, review_files] at hfiles
    rw [review_summary, review_summary]
    by_cases h1 : ctxs1.isEmpty
    · have h2 : ctxs2.isEmpty = true := by
        rw [List.isEmpty_iff] at h1 ⊢
        subst h1
        rw [List.length_nil] at hfiles
        exact List.length_eq_zero.mp hfiles.symm
      rw [if_pos h1, if_pos h2]
    · have h2 : ¬ctxs2.isEmpty = true := by
        intro hc
        apply h1
        rw [List.isEmpty_iff] at hc ⊢
        subst hc
        rw [List.length_nil] at hfiles
        exact List.length_eq_zero.mp hfiles
      rw [if_neg h1, if_neg h2, hiss, hfiles]
  · intro complete
    rfl

/-- C10 (witness): two runs over the same single file, one with a failing
endpoint and one with a response carrying no markers, collect the same (zero)
issues and the same file count, hence the same summary. -/
theorem c10_witness :
    (review (fun _ => Except.error "boom")
        [⟨⟨"a.py", "modified", [], [], [], "d"⟩, [], [], [], []⟩]).summary =
      (review (fun _ => Except.ok "no markers here")
        [⟨⟨"a.py", "modified", [], [], [], "d"⟩, [], [], [], []⟩]).summary :=
  c10_result_invariants.2.1 _ _ _ _ (by decide) (by decide)

end CodeReview
